import Mathlib

/-!
Shallow embedding of `oidbt_torrent/torrent.py`: the metadata schema
validator, format classifier, hash engine, size aggregator and magnet URI
builder.  The bencode codec and the SHA-1/SHA-256 primitives are external
collaborators: decoded values are modelled by the inductive `Bval`, and the
hash primitives are parameters of the functions that use them.
-/

/-- Byte strings are lists of naturals (one per byte). -/
abbrev Bytes := List Nat

mutual
/-- Decoded bencode value model: byte-strings, integers, lists, and ordered
maps with byte-string keys (entry order preserved, as produced by the codec). -/
inductive Bval where
  | str (s : Bytes)
  | int (n : Int)
  | list (l : Blist)
  | dict (d : Bdict)

/-- A decoded list of values. -/
inductive Blist where
  | nil
  | cons (v : Bval) (rest : Blist)

/-- A decoded ordered dictionary with byte-string keys. -/
inductive Bdict where
  | nil
  | cons (k : Bytes) (v : Bval) (rest : Bdict)
end

/-- Build a decoded list from a Lean list (for writing concrete inputs). -/
def Blist.ofList : List Bval → Blist
  | [] => .nil
  | v :: rest => .cons v (Blist.ofList rest)

/-- Build a decoded dictionary from a Lean association list (for writing
concrete inputs). -/
def Bdict.ofList : List (Bytes × Bval) → Bdict
  | [] => .nil
  | (k, v) :: rest => .cons k v (Bdict.ofList rest)

/-- Encode an ASCII string as bytes (used for the fixed dictionary keys). -/
def bs (s : String) : Bytes := s.data.map Char.toNat

def kInfo : Bytes := bs "info"
def kName : Bytes := bs "name"
def kPieceLength : Bytes := bs "piece length"
def kSource : Bytes := bs "source"
def kLength : Bytes := bs "length"
def kFiles : Bytes := bs "files"
def kPieces : Bytes := bs "pieces"
def kFileTree : Bytes := bs "file tree"
def kMetaVersion : Bytes := bs "meta version"
def kAnnounce : Bytes := bs "announce"
def kAnnounceList : Bytes := bs "announce-list"
def kComment : Bytes := bs "comment"
def kCreatedBy : Bytes := bs "created by"
def kCreationDate : Bytes := bs "creation date"
def kUrlList : Bytes := bs "url-list"
def kPieceLayers : Bytes := bs "piece layers"

/-- Python dict lookup (keys of decoded maps are unique, so first match). -/
def dictLookup (d : Bdict) (k : Bytes) : Option Bval :=
  match d with
  | .nil => none
  | .cons k2 v rest => if k2 = k then some v else dictLookup rest k

/-- Decimal ASCII bytes of a natural number. -/
def natBytes (n : Nat) : Bytes := (toString n).data.map Char.toNat

/-- Decimal ASCII bytes of an integer (with a leading minus sign if negative). -/
def intBytes (n : Int) : Bytes := (toString n).data.map Char.toNat

/-- Length of a decoded byte string. -/
def bytesLen (s : Bytes) : Nat := s.length

mutual
/-- Canonical bencode re-encoding of a decoded value (map entries in stored
order, per the deterministic codec contract). -/
def bencode : Bval → Bytes
  | .str s => natBytes (bytesLen s) ++ 58 :: s
  | .int n => 105 :: (intBytes n ++ [101])
  | .list l => 108 :: (bencodeList l ++ [101])
  | .dict d => 100 :: (bencodeDict d ++ [101])

/-- Bencode each element of a list in order. -/
def bencodeList : Blist → Bytes
  | .nil => []
  | .cons v rest => bencode v ++ bencodeList rest

/-- Bencode each key-value pair of a dictionary in stored order (a key is
encoded exactly like a byte string value). -/
def bencodeDict : Bdict → Bytes
  | .nil => []
  | .cons k v rest => (natBytes (bytesLen k) ++ 58 :: k) ++ bencode v ++ bencodeDict rest
end

/-- Shape check for one element of the Python type `list[bytes]`. -/
def isBytesVal : Bval → Bool
  | .str _ => true
  | _ => false

/-- Shape check for every element of a decoded list being a byte string. -/
def allBytesList : Blist → Bool
  | .nil => true
  | .cons v rest => isBytesVal v && allBytesList rest

/-- Shape check for a value of the Python type
`File = dict[bytes, bytes | int | list[bytes]]` (a value of such a dict). -/
def isFileVal : Bval → Bool
  | .str _ => true
  | .int _ => true
  | .list l => allBytesList l
  | .dict _ => false

/-- Shape check for `File = dict[bytes, bytes | int | list[bytes]]`. -/
def checkFile : Bdict → Bool
  | .nil => true
  | .cons _ v rest => isFileVal v && checkFile rest

/-- Shape check for `File_tree = dict[bytes, File_tree | File]`: every value
is a dictionary that is itself a file tree or a file record. -/
def checkFTnode : Bdict → Bool
  | .nil => true
  | .cons _ v rest =>
    (match v with
     | .dict d2 => checkFTnode d2 || checkFile d2
     | _ => false) && checkFTnode rest

def asBytes : Bval → Option Bytes
  | .str s => some s
  | _ => none

/-- Parse a nonempty run of ASCII decimal digits as a natural number. -/
def decDigits (s : Bytes) : Option Nat :=
  match s with
  | [] => none
  | _ => go 0 s
where
  go (acc : Nat) : Bytes → Option Nat
    | [] => some acc
    | b :: rest => if 48 ≤ b && b ≤ 57 then go (10 * acc + (b - 48)) rest else none

/-- Parse a numeric byte string: decimal digits with an optional leading
sign, the form pydantic coerces to an integer. -/
def parseDecBytes (s : Bytes) : Option Int :=
  match s with
  | 43 :: rest => (decDigits rest).map Int.ofNat
  | 45 :: rest => (decDigits rest).map fun n => -(Int.ofNat n)
  | _ => (decDigits s).map Int.ofNat

/-- An int-typed pydantic field in the source's lax (non-strict) mode:
integers pass through, and numeric byte-strings are coerced to the integer
they spell (pydantic v2 lax `int` validation, e.g. `b"2"` validates to `2`);
lists and dictionaries are rejected. -/
def asIntLax : Bval → Option Int
  | .int n => some n
  | .str s => parseDecBytes s
  | _ => none

def asDict : Bval → Option Bdict
  | .dict d => some d
  | _ => none

/-- Validate one entry of `files` as a `File` record, keeping the raw dict. -/
def parseFileEntry : Bval → Option Bdict
  | .dict d => if checkFile d then some d else none
  | _ => none

/-- Validate each element of the `files` list as a `File` record. -/
def parseFilesList : Blist → Option (List Bdict)
  | .nil => some []
  | .cons v rest =>
    match parseFileEntry v, parseFilesList rest with
    | some d, some ds => some (d :: ds)
    | _, _ => none

/-- Validate `files : list[File] | None`. -/
def parseFiles : Bval → Option (List Bdict)
  | .list l => parseFilesList l
  | _ => none

/-- Validate `file_tree : File_tree | None`, keeping the raw dict. -/
def parseFT : Bval → Option Bdict
  | .dict d => if checkFTnode d then some d else none
  | _ => none

/-- Validate a decoded list as `list[bytes]`. -/
def parseBytesList : Blist → Option (List Bytes)
  | .nil => some []
  | .cons v rest =>
    match asBytes v, parseBytesList rest with
    | some s, some ss => some (s :: ss)
    | _, _ => none

/-- Validate each element of `announce_list` as `list[bytes]`. -/
def parseAnnounceTiers : Blist → Option (List (List Bytes))
  | .nil => some []
  | .cons v rest =>
    match v with
    | .list inner =>
      match parseBytesList inner, parseAnnounceTiers rest with
      | some tier, some tiers => some (tier :: tiers)
      | _, _ => none
    | _ => none

/-- Validate `announce_list : list[list[bytes]] | None`. -/
def parseAnnounceList : Bval → Option (List (List Bytes))
  | .list l => parseAnnounceTiers l
  | _ => none

/-- The validated shape of `url_list : list[bytes] | bytes | None`. -/
inductive UrlList where
  | many (l : List Bytes)
  | one (s : Bytes)

/-- Validate `url_list : list[bytes] | bytes | None`. -/
def parseUrlList : Bval → Option UrlList
  | .str s => some (.one s)
  | .list l => (parseBytesList l).map UrlList.many
  | _ => none

/-- Validate the entries of `piece_layers` as `dict[bytes, bytes]`. -/
def parsePieceLayersDict : Bdict → Option (List (Bytes × Bytes))
  | .nil => some []
  | .cons k v rest =>
    match asBytes v, parsePieceLayersDict rest with
    | some s, some ps => some ((k, s) :: ps)
    | _, _ => none

/-- Validate `piece_layers : dict[bytes, bytes] | None`. -/
def parsePieceLayers : Bval → Option (List (Bytes × Bytes))
  | .dict d => parsePieceLayersDict d
  | _ => none

/-- An optional model field: absent key is fine (`some none`), a present key
must parse or the whole validation fails (`none`). -/
def optField (d : Bdict) (k : Bytes) (p : Bval → Option α) : Option (Option α) :=
  match dictLookup d k with
  | none => some none
  | some v => (p v).map some

/-- The validated `Torrent.Data.Info` pydantic model.  `files`, `file_tree`
and the raw dicts inside them are kept verbatim (pydantic passes the runtime
dictionaries through after shape-checking them). -/
structure InfoData where
  name : Bytes
  piece_length : Int
  source : Option Bytes
  length : Option Int
  files : Option (List Bdict)
  pieces : Option Bytes
  file_tree : Option Bdict
  meta_version : Option Int

/-- The validated `Torrent.Data` pydantic model. -/
structure DataModel where
  announce : Option Bytes
  announce_list : Option (List (List Bytes))
  comment : Option Bytes
  created_by : Option Bytes
  creation_date : Option Int
  info : InfoData
  url_list : Option UrlList
  piece_layers : Option (List (Bytes × Bytes))

/-- Field-by-field validation of the `info` sub-dictionary (aliases
`piece length`, `file tree`, `meta version`; unknown keys pass through). -/
def parseInfo (i : Bdict) : Option InfoData :=
  Option.bind (Option.bind (dictLookup i kName) asBytes) fun name =>
  Option.bind (Option.bind (dictLookup i kPieceLength) asIntLax) fun piece_length =>
  Option.bind (optField i kSource asBytes) fun source =>
  Option.bind (optField i kLength asIntLax) fun length =>
  Option.bind (optField i kFiles parseFiles) fun files =>
  Option.bind (optField i kPieces asBytes) fun pieces =>
  Option.bind (optField i kFileTree parseFT) fun file_tree =>
  Option.bind (optField i kMetaVersion asIntLax) fun meta_version =>
  some ⟨name, piece_length, source, length, files, pieces, file_tree, meta_version⟩

/-- Field-by-field validation of the top-level dictionary; `none` models a
pydantic `ValidationError` (the `Parse_error` raised by `_refresh_data`). -/
def validateData (d : Bdict) : Option DataModel :=
  Option.bind (optField d kAnnounce asBytes) fun announce =>
  Option.bind (optField d kAnnounceList parseAnnounceList) fun announce_list =>
  Option.bind (optField d kComment asBytes) fun comment =>
  Option.bind (optField d kCreatedBy asBytes) fun created_by =>
  Option.bind (optField d kCreationDate asIntLax) fun creation_date =>
  Option.bind (Option.bind (Option.bind (dictLookup d kInfo) asDict) parseInfo) fun info =>
  Option.bind (optField d kUrlList parseUrlList) fun url_list =>
  Option.bind (optField d kPieceLayers parsePieceLayers) fun piece_layers =>
  some ⟨announce, announce_list, comment, created_by, creation_date, info, url_list, piece_layers⟩

/-- The error taxonomy of construction: the three `Parse_error` sites plus the
`ValueError` raised by the classifier on an unknown `meta_version`. -/
inductive Err where
  | not_dict
  | pydantic
  | unknown_format
  | format_error
deriving DecidableEq

/-- The enum `Torrent.Torrent_format`. -/
inductive Torrent_format where
  | v1
  | v2
  | hybrid
deriving DecidableEq

/-- The format classifier `Torrent.get_torrent_format`, a pure function of the
validated info record; `none` models the `ValueError` raised on an unknown
`meta_version`. -/
def get_torrent_format (info : InfoData) : Option Torrent_format :=
  match info.meta_version with
  | none => some .v1
  | some 2 => some (match info.files with | none => .v2 | some _ => .hybrid)
  | some _ => none

/-- The state of a constructed `Torrent` instance: the raw decoded dictionary,
the validated model, the re-encoded bytes, and the computed format. -/
structure Torrent where
  data_dict : Bdict
  data : DataModel
  data_bytes : Bytes
  format : Torrent_format

/-- The format-specific required-field check of `Torrent.__init__` (true when
the `Parse_error` branch fires). -/
def formatCheckFails (dm : DataModel) (fmt : Torrent_format) : Bool :=
  match fmt with
  | .v1 => dm.info.pieces.isNone || (dm.info.files.isNone && dm.info.length.isNone)
  | .v2 => dm.info.file_tree.isNone || dm.info.meta_version.isNone || dm.piece_layers.isNone
  | .hybrid =>
    dm.info.pieces.isNone || (dm.info.files.isNone && dm.info.length.isNone)
      || dm.info.file_tree.isNone || dm.info.meta_version.isNone || dm.piece_layers.isNone

/-- `Torrent.__init__` starting from the decoded value: structural check, then
schema validation (`_refresh_data`), then classification (`_refresh_info`),
then the format-specific checks and the `files`/`length` exclusion check. -/
def torrentInit (raw : Bval) : Except Err Torrent :=
  match raw with
  | .dict d =>
    (match validateData d with
     | none => .error .pydantic
     | some dm =>
       match get_torrent_format dm.info with
       | none => .error .unknown_format
       | some fmt =>
         if formatCheckFails dm fmt then .error .format_error
         else if dm.info.files.isSome && dm.info.length.isSome then .error .format_error
         else .ok ⟨d, dm, bencode raw, fmt⟩)
  | _ => .error .not_dict

/-- The recursive loop of `Torrent._get_file_tree_xl` over one dictionary:
an entry with key `length` and integer value contributes that value, an entry
whose value is a dictionary contributes that dictionary's recursive total. -/
def ftXlEntries : Bdict → Int
  | .nil => 0
  | .cons k v rest =>
    (match v with
     | .int n => if k = kLength then n else 0
     | .dict d2 => ftXlEntries d2
     | _ => 0) + ftXlEntries rest

/-- `Torrent._get_file_tree_xl()` called with no argument: `none` exactly when
`file_tree` is absent. -/
def get_file_tree_xl (t : Torrent) : Option Int :=
  t.data.info.file_tree.map ftXlEntries

/-- Sum of the per-file recursive totals over the `files` list. -/
def sumFilesXl : List Bdict → Int
  | [] => 0
  | f :: rest => ftXlEntries f + sumFilesXl rest

/-- `Torrent._get_files_xl`: sum over `files` when present, else `length`. -/
def get_files_xl (t : Torrent) : Option Int :=
  match t.data.info.files with
  | some fs => some (sumFilesXl fs)
  | none => t.data.info.length

/-- Python `a or b` on an optional integer: `None` and `0` are both falsy. -/
def pyOrInt (a b : Option Int) : Option Int :=
  match a with
  | some n => if n = 0 then b else some n
  | none => b

/-- `Torrent.get_xl`; `none` models the failing `assert xl is not None`. -/
def get_xl (t : Torrent) : Option Int :=
  pyOrInt (get_file_tree_xl t) (get_files_xl t)

/-- `Torrent.get_hash_v1` with the SHA-1 primitive as a parameter: the digest
of the canonical re-encoding of the raw `info` sub-map (`none` models the
impossible missing-key lookup error). -/
def get_hash_v1 (sha1 : Bytes → Bytes) (t : Torrent) : Option Bytes :=
  (dictLookup t.data_dict kInfo).map fun v => sha1 (bencode v)

/-- `Torrent.get_hash_v2`, the SHA-256 analogue. -/
def get_hash_v2 (sha256 : Bytes → Bytes) (t : Torrent) : Option Bytes :=
  (dictLookup t.data_dict kInfo).map fun v => sha256 (bencode v)

/-- The `hash_v1` field of the computed info: set by `_refresh_info` for the
v1 and hybrid formats only. -/
def hash_v1 (sha1 : Bytes → Bytes) (t : Torrent) : Option Bytes :=
  match t.format with
  | .v2 => none
  | _ => get_hash_v1 sha1 t

/-- The `hash_v2` field of the computed info: set by `_refresh_info` for the
v2 and hybrid formats only. -/
def hash_v2 (sha256 : Bytes → Bytes) (t : Torrent) : Option Bytes :=
  match t.format with
  | .v1 => none
  | _ => get_hash_v2 sha256 t

/-- Lowercase hex character of a value below 16. -/
def hexCharLower (n : Nat) : Char :=
  if n < 10 then Char.ofNat (48 + n) else Char.ofNat (87 + n)

/-- Uppercase hex character of a value below 16. -/
def hexCharUpper (n : Nat) : Char :=
  if n < 10 then Char.ofNat (48 + n) else Char.ofNat (55 + n)

/-- The `hexdigest()` rendering of a digest: two lowercase hex digits per byte. -/
def hexdigest (h : Bytes) : String :=
  String.join (h.map fun b => String.mk [hexCharLower (b / 16), hexCharLower (b % 16)])

/-- One byte under `urllib.parse.quote` with the default safe set: ASCII
letters, digits, `_`, `.`, `-`, `~` and `/` pass through, everything else
becomes a percent escape with uppercase hex digits. -/
def quoteByte (b : Nat) : String :=
  if (65 ≤ b && b ≤ 90) || (97 ≤ b && b ≤ 122) || (48 ≤ b && b ≤ 57)
      || b == 95 || b == 46 || b == 45 || b == 126 || b == 47 then
    String.mk [Char.ofNat b]
  else
    String.mk ['%', hexCharUpper (b / 16), hexCharUpper (b % 16)]

/-- `urllib.parse.quote` on a byte string with the default safe set. -/
def pyQuote (s : Bytes) : String := String.join (s.map quoteByte)

/-- `Torrent.get_magnet`: assemble the parameter list in source order
(xt, dn, xl, ws, tr) and join it.  `none` models the assertion failures
(a missing hash, or `get_xl` failing when `xl` is requested). -/
def get_magnet (sha1 sha256 : Bytes → Bytes) (t : Torrent)
    (dn xl ws tr only_one_tr : Bool) : Option String :=
  match (match t.format with
         | .v1 => (hash_v1 sha1 t).map fun h => ["xt=urn:btih:" ++ hexdigest h]
         | .v2 => (hash_v2 sha256 t).map fun h => ["xt=urn:btmh:1220" ++ hexdigest h]
         | .hybrid =>
           match hash_v1 sha1 t, hash_v2 sha256 t with
           | some h1, some h2 =>
             some ["xt=urn:btih:" ++ hexdigest h1, "xt=urn:btmh:1220" ++ hexdigest h2]
           | _, _ => none) with
  | none => none
  | some xtL =>
    let dnL := if dn then ["dn=" ++ pyQuote t.data.info.name] else []
    match (if xl then (get_xl t).map fun n => ["xl=" ++ toString n] else some []) with
    | none => none
    | some xlL =>
      let wsL := if ws then
          match t.data.url_list with
          | some (.many l) => l.map fun u => "ws=" ++ pyQuote u
          | some (.one u) => ["ws=" ++ pyQuote u]
          | none => []
        else []
      let trL := if tr then
          let al : List (List Bytes) :=
            match t.data.announce_list with
            | some (x :: xs) => x :: xs
            | _ =>
              match t.data.announce with
              | some a => [[a]]
              | none => []
          let al2 := if only_one_tr then al.take 1 else al
          al2.flatten.map fun u => "tr=" ++ pyQuote u
        else []
      some ("magnet:?" ++ String.intercalate "&" (xtL ++ dnL ++ xlL ++ wsL ++ trL))

/-- The `data_dict` property setter followed by `_refresh`, with the mutation
order of the source: the raw dictionary is stored first, then `_refresh_data`
re-validates (updating the typed data and the re-encoded bytes only on
success), then `_refresh_info` re-classifies (updating the computed format
only on success).  The second component reports the raised error, if any; the
first component is the state of the instance afterwards. -/
def set_data_dict (t : Torrent) (v : Bdict) : Torrent × Option Err :=
  let t1 : Torrent := { t with data_dict := v }
  match validateData v with
  | none => (t1, some .pydantic)
  | some dm =>
    let t2 : Torrent := { t1 with data := dm, data_bytes := bencode (.dict v) }
    match get_torrent_format dm.info with
    | none => (t2, some .unknown_format)
    | some fmt => ({ t2 with format := fmt }, none)

/-- Key absence in a decoded dictionary. -/
def keyNotIn (k : Bytes) : Bdict → Bool
  | .nil => true
  | .cons k2 _ rest => decide (k2 ≠ k) && keyNotIn k rest

/-- Well-formedness of decoded dictionaries as produced by the codec: keys of
a map are pairwise distinct (Python dictionaries cannot hold duplicate keys),
recursively for every dictionary-valued entry. -/
def wfDict : Bdict → Bool
  | .nil => true
  | .cons k v rest =>
    keyNotIn k rest
      && (match v with | .dict d2 => wfDict d2 | _ => true)
      && wfDict rest

/-- Modelled from the spec: the entry the claim calls "a length entry with an
integer value" of a node. -/
def specLengthEntry (d : Bdict) : Option Int :=
  match dictLookup d kLength with
  | some (.int n) => some n
  | _ => none

/-- Modelled from the spec: sum of the contributions of the map-valued
children of a node, where each child's contribution is its own length entry
if it has one with an integer value (a leaf, no further recursion), and the
sum over its map-valued children otherwise. -/
def specChildrenXl : Bdict → Int
  | .nil => 0
  | .cons _ v rest =>
    (match v with
     | .dict d2 =>
       (match specLengthEntry d2 with
        | some n => n
        | none => specChildrenXl d2)
     | _ => 0) + specChildrenXl rest

/-- Modelled from the spec: the per-node contribution the claim describes —
if the node contains a length entry with an integer value, that length
(leaf, no further recursion); otherwise the sum over every child value that
is itself a map. -/
def specNodeXl (d : Bdict) : Int :=
  match specLengthEntry d with
  | some n => n
  | none => specChildrenXl d

/-- Extract the instance of a successful construction (a placeholder instance
for the failure case, used only to name concrete constructed torrents). -/
def extractOk (x : Except Err Torrent) : Torrent :=
  match x with
  | .ok t => t
  | .error _ =>
    ⟨.nil, ⟨none, none, none, none, none, ⟨[], 0, none, none, none, none, none, none⟩, none, none⟩, [], .v1⟩

/-- A v1 single-file input: the magnet builder scenario of the spec (name
"example", one tracker in `announce`, no web seeds). -/
def dC3 : Bdict := .ofList [
  (kAnnounce, .str (bs "http://tracker.example/announce")),
  (kInfo, .dict (.ofList [
    (kName, .str (bs "example")),
    (kPieceLength, .int 16384),
    (kPieces, .str []),
    (kLength, .int 7)]))]

/-- The torrent constructed from `dC3`. -/
def tC3 : Torrent := extractOk (torrentInit (.dict dC3))

/-- The example v1 digest of the spec scenario, as twenty raw bytes. -/
def digC3 : Bytes :=
  [0xda, 0x39, 0xa3, 0xee, 0x5e, 0x6b, 0x4b, 0x0d, 0x32, 0x55,
   0xbf, 0xef, 0x95, 0x60, 0x18, 0x90, 0xaf, 0xd8, 0x07, 0x09]

/-- A SHA-1 stand-in returning the spec scenario's example digest. -/
def sha1C3 : Bytes → Bytes := fun _ => digC3

/-- A dummy SHA-256 stand-in (unused by the v1-only scenarios). -/
def sha256Z : Bytes → Bytes := fun _ => []

/-- The magnet URI the code actually produces in the spec scenario. -/
def magnetActualC3 : String :=
  "magnet:?xt=urn:btih:da39a3ee5e6b4b0d3255bfef95601890afd80709&dn=example&tr=http%3A//tracker.example/announce"

/-- A hybrid input whose v2 total is zero (empty file tree) while its v1
total is five. -/
def dC1 : Bdict := .ofList [
  (kInfo, .dict (.ofList [
    (kName, .str (bs "x")),
    (kPieceLength, .int 1),
    (kPieces, .str []),
    (kFiles, .list (.ofList [.dict (.ofList [(kLength, .int 5)])])),
    (kFileTree, .dict .nil),
    (kMetaVersion, .int 2)])),
  (kPieceLayers, .dict .nil)]

/-- The torrent constructed from `dC1`. -/
def tC1 : Torrent := extractOk (torrentInit (.dict dC1))

/-- A v2 input holding a single empty file, so its file tree sums to zero and
no v1 length source exists. -/
def dC2 : Bdict := .ofList [
  (kInfo, .dict (.ofList [
    (kName, .str (bs "x")),
    (kPieceLength, .int 1),
    (kFileTree, .dict (.ofList [
      (bs "a", .dict (.ofList [
        (bs "", .dict (.ofList [(kLength, .int 0)]))]))])),
    (kMetaVersion, .int 2)])),
  (kPieceLayers, .dict .nil)]

/-- The torrent constructed from `dC2`. -/
def tC2 : Torrent := extractOk (torrentInit (.dict dC2))

/-- A minimal valid v1 input. -/
def dC10 : Bdict := .ofList [
  (kInfo, .dict (.ofList [
    (kName, .str (bs "x")),
    (kPieceLength, .int 1),
    (kPieces, .str []),
    (kLength, .int 1)]))]

/-- The torrent constructed from `dC10`. -/
def tC10 : Torrent := extractOk (torrentInit (.dict dC10))

/-- An input whose info holds both `files` and `length`. -/
def iC6 : Bdict := .ofList [
  (kName, .str (bs "x")),
  (kPieceLength, .int 1),
  (kPieces, .str []),
  (kFiles, .list (.ofList [.dict (.ofList [(kLength, .int 5)])])),
  (kLength, .int 5)]

/-- Top-level dictionary around `iC6`. -/
def dC6 : Bdict := .ofList [(kInfo, .dict iC6)]

/-- An info dictionary with `meta_version` equal to three. -/
def iC7 : Bdict := .ofList [
  (kName, .str (bs "x")),
  (kPieceLength, .int 1),
  (kPieces, .str []),
  (kLength, .int 1),
  (kMetaVersion, .int 3)]

/-- Top-level dictionary around `iC7`. -/
def dC7 : Bdict := .ofList [(kInfo, .dict iC7)]

/-- An info dictionary whose `meta_version` is the byte string "2" (which
the lax validator coerces to the integer two). -/
def iC7s : Bdict := .ofList [
  (kName, .str (bs "x")),
  (kPieceLength, .int 1),
  (kFileTree, .dict .nil),
  (kMetaVersion, .str (bs "2"))]

/-- A v2 input around `iC7s`, constructible thanks to the coercion. -/
def dC7s : Bdict := .ofList [(kInfo, .dict iC7s), (kPieceLayers, .dict .nil)]

/-- The torrent constructed from `dC7s`. -/
def tC7s : Torrent := extractOk (torrentInit (.dict dC7s))

/-- An info dictionary whose `meta_version` is the byte string "3". -/
def iC7t : Bdict := .ofList [
  (kName, .str (bs "x")),
  (kPieceLength, .int 1),
  (kPieces, .str []),
  (kLength, .int 1),
  (kMetaVersion, .str (bs "3"))]

/-- Top-level dictionary around `iC7t`. -/
def dC7t : Bdict := .ofList [(kInfo, .dict iC7t)]

/-- A validated info record with no `meta_version` (classifies as v1). -/
def infoW1 : InfoData := ⟨bs "n", 1, none, none, none, none, none, none⟩

/-- A validated info record with `meta_version` two and no `files`. -/
def infoW2 : InfoData := ⟨bs "n", 1, none, none, none, none, none, some 2⟩

/-- A validated info record with `meta_version` two and `files` present. -/
def infoW3 : InfoData := ⟨bs "n", 1, none, none, some [], none, none, some 2⟩

/-- A SHA-1 stand-in with twenty-byte output everywhere. -/
def sha1W : Bytes → Bytes := fun _ => List.replicate 20 0

/-- The file tree of the spec's size-aggregation example, with leaf lengths
one hundred, two hundred fifty, and zero. -/
def treeC9 : Bdict := .ofList [
  (bs "a", .dict (.ofList [(bs "", .dict (.ofList [(kLength, .int 100)]))])),
  (bs "b", .dict (.ofList [(bs "", .dict (.ofList [(kLength, .int 250)]))])),
  (bs "c", .dict (.ofList [(bs "", .dict (.ofList [(kLength, .int 0)]))]))]

/-- A v2 input carrying `treeC9` as its file tree. -/
def dC9 : Bdict := .ofList [
  (kInfo, .dict (.ofList [
    (kName, .str (bs "x")),
    (kPieceLength, .int 1),
    (kFileTree, .dict treeC9),
    (kMetaVersion, .int 2)])),
  (kPieceLayers, .dict .nil)]

/-- The torrent constructed from `dC9`. -/
def tC9 : Torrent := extractOk (torrentInit (.dict dC9))

/-- Plain structural induction over decoded dictionaries (the entry values
are not part of the motive). -/
theorem Bdict.inductionOn (motive : Bdict → Prop) (nil : motive .nil)
    (cons : ∀ k v rest, motive rest → motive (.cons k v rest)) :
    ∀ d, motive d
  | .nil => nil
  | .cons k v rest => cons k v rest (Bdict.inductionOn motive nil cons rest)

/-- Strong induction over decoded dictionaries by size, giving access to the
nested dictionaries stored inside entry values. -/
theorem Bdict.strongInductionOn (motive : Bdict → Prop)
    (ih : ∀ d, (∀ d2, sizeOf d2 < sizeOf d → motive d2) → motive d) (d : Bdict) :
    motive d := by
  have main : ∀ (n : Nat) (d : Bdict), sizeOf d ≤ n → motive d := by
    intro n
    induction n with
    | zero => exact fun d hd => ih d (fun d2 h2 => absurd (Nat.lt_of_lt_of_le h2 hd) (by omega))
    | succ n ihn => exact fun d hd => ih d (fun d2 h2 => ihn d2 (by omega))
  exact main (sizeOf d) d le_rfl

/-- A key that `keyNotIn` rules out is not found by `dictLookup`. -/
theorem keyNotIn_lookup (k : Bytes) (d : Bdict) (h : keyNotIn k d = true) :
    dictLookup d k = none := by
  induction d using Bdict.inductionOn with
  | nil => rfl
  | cons k2 v rest ihr =>
    simp [keyNotIn] at h
    simp [dictLookup, h.1, ihr h.2]

/-- Inversion for `asDict`. -/
theorem asDict_eq_some (v : Bval) (d : Bdict) (h : asDict v = some d) : v = .dict d := by
  cases v <;> simp [asDict] at h
  simp [h]

/-- A present key makes a successfully validated optional field non-absent. -/
theorem optField_present (d : Bdict) (k : Bytes) (p : Bval → Option α) (o : Option α)
    (v : Bval) (ho : optField d k p = some o) (hv : dictLookup d k = some v) :
    ∃ a, p v = some a ∧ o = some a := by
  simp [optField, hv] at ho
  rcases ho with ⟨a, ha, rfl⟩
  exact ⟨a, ha, rfl⟩

/-- An absent key makes a successfully validated optional field absent. -/
theorem optField_absent (d : Bdict) (k : Bytes) (p : Bval → Option α) (o : Option α)
    (ho : optField d k p = some o) (hv : dictLookup d k = none) : o = none := by
  simp [optField, hv] at ho
  exact ho.symm

/-- A non-absent validated optional field comes from a present key. -/
theorem optField_isSome (d : Bdict) (k : Bytes) (p : Bval → Option α) (a : α)
    (ho : optField d k p = some (some a)) :
    ∃ v, dictLookup d k = some v ∧ p v = some a := by
  unfold optField at ho
  cases hv : dictLookup d k with
  | none => simp [hv] at ho
  | some v =>
    simp [hv] at ho
    exact ⟨v, rfl, ho⟩

/-- Inversion for one step of an `Option.bind` chain. -/
theorem bind_some {α β : Type} {x : Option α} {f : α → Option β} {b : β}
    (h : Option.bind x f = some b) : ∃ a, x = some a ∧ f a = some b := by
  cases x with
  | none => exact absurd h (by simp)
  | some a => exact ⟨a, rfl, h⟩

/-- Inversion of a successful `parseInfo`: every optional field of the model
is the validation of the corresponding raw entry. -/
theorem parseInfo_inv (i : Bdict) (inf : InfoData) (h : parseInfo i = some inf) :
    optField i kLength asIntLax = some inf.length
      ∧ optField i kFiles parseFiles = some inf.files
      ∧ optField i kPieces asBytes = some inf.pieces
      ∧ optField i kFileTree parseFT = some inf.file_tree
      ∧ optField i kMetaVersion asIntLax = some inf.meta_version := by
  unfold parseInfo at h
  obtain ⟨name, h1, h⟩ := bind_some h
  obtain ⟨pl, h2, h⟩ := bind_some h
  obtain ⟨src, h3, h⟩ := bind_some h
  obtain ⟨len, h4, h⟩ := bind_some h
  obtain ⟨fls, h5, h⟩ := bind_some h
  obtain ⟨pcs, h6, h⟩ := bind_some h
  obtain ⟨ft, h7, h⟩ := bind_some h
  obtain ⟨mv, h8, h⟩ := bind_some h
  cases Option.some.inj h
  exact ⟨h4, h5, h6, h7, h8⟩

/-- Inversion of a successful `validateData`: the `info` key holds a raw
dictionary whose validation is the model's `info`, and `piece_layers` is the
validation of the corresponding raw entry. -/
theorem validateData_inv (d : Bdict) (dm : DataModel) (h : validateData d = some dm) :
    (∃ i, dictLookup d kInfo = some (.dict i) ∧ parseInfo i = some dm.info)
      ∧ optField d kPieceLayers parsePieceLayers = some dm.piece_layers := by
  unfold validateData at h
  obtain ⟨ann, h1, h⟩ := bind_some h
  obtain ⟨al, h2, h⟩ := bind_some h
  obtain ⟨cm, h3, h⟩ := bind_some h
  obtain ⟨cb, h4, h⟩ := bind_some h
  obtain ⟨cd, h5, h⟩ := bind_some h
  obtain ⟨info, h6, h⟩ := bind_some h
  obtain ⟨ul, h7, h⟩ := bind_some h
  obtain ⟨pls, h8, h⟩ := bind_some h
  cases Option.some.inj h
  obtain ⟨iv, hiv, hparse⟩ := bind_some h6
  obtain ⟨v0, hv0, hasd⟩ := bind_some hiv
  exact ⟨⟨iv, by rw [hv0, asDict_eq_some v0 iv hasd], hparse⟩, h8⟩

/-- Inversion of a successful construction: the raw value is a dictionary, it
validates, the classifier succeeds, both construction-time checks pass, and
the instance stores the raw dictionary, the model and the format. -/
theorem torrentInit_ok (raw : Bval) (t : Torrent) (h : torrentInit raw = .ok t) :
    ∃ d dm fmt, raw = .dict d ∧ validateData d = some dm
      ∧ get_torrent_format dm.info = some fmt
      ∧ formatCheckFails dm fmt = false
      ∧ (dm.info.files.isSome && dm.info.length.isSome) = false
      ∧ t.data_dict = d ∧ t.data = dm ∧ t.format = fmt := by
  cases raw with
  | dict d =>
    refine ⟨d, ?_⟩
    simp only [torrentInit] at h
    split at h
    next hval => exact Except.noConfusion h
    next dm hval =>
      split at h
      next hfmt => exact Except.noConfusion h
      next fmt hfmt =>
        split at h
        next hchk => exact Except.noConfusion h
        next hchk =>
          split at h
          next hexcl => exact Except.noConfusion h
          next hexcl =>
            cases Except.ok.inj h
            exact ⟨dm, fmt, rfl, hval, hfmt, by rwa [Bool.not_eq_true] at hchk,
              by rwa [Bool.not_eq_true] at hexcl, rfl, rfl, rfl⟩
  | str s => exact absurd h (by simp [torrentInit])
  | int n => exact absurd h (by simp [torrentInit])
  | list l => exact absurd h (by simp [torrentInit])

/-- Inversion for `parseFT`: a validated file tree is a dictionary that
passes the `File_tree` shape check. -/
theorem parseFT_some (v : Bval) (d : Bdict) (h : parseFT v = some d) :
    v = .dict d ∧ checkFTnode d = true := by
  cases v <;> simp [parseFT] at h
  next d0 =>
  obtain ⟨hc, rfl⟩ := h
  exact ⟨rfl, hc⟩

/-- A `File_tree` node has no length entry with an integer value: all of its
entry values are dictionaries. -/
theorem specLengthEntry_ft (d : Bdict) (h : checkFTnode d = true) :
    specLengthEntry d = none := by
  induction d using Bdict.inductionOn with
  | nil => rfl
  | cons k v rest ihr =>
    cases v with
    | dict d2 =>
      simp only [checkFTnode, Bool.and_eq_true] at h
      by_cases hk : k = kLength
      · subst hk
        simp [specLengthEntry, dictLookup]
      · have hr := ihr h.2
        simp only [specLengthEntry, dictLookup, if_neg hk] at hr ⊢
        exact hr
    | int n => exact absurd h (by simp [checkFTnode])
    | str s => exact absurd h (by simp [checkFTnode])
    | list l => exact absurd h (by simp [checkFTnode])

/-- On a `File` record (all entry values scalar) with distinct keys, the
recursive loop returns its integer length entry if any, and zero otherwise. -/
theorem ftXl_file (d : Bdict) (hf : checkFile d = true) (hw : wfDict d = true) :
    ftXlEntries d = (specLengthEntry d).getD 0 := by
  induction d using Bdict.inductionOn with
  | nil => rfl
  | cons k v rest ihr =>
    unfold checkFile at hf
    rw [Bool.and_eq_true] at hf
    unfold wfDict at hw
    rw [Bool.and_eq_true, Bool.and_eq_true] at hw
    have ihr2 := ihr hf.2 hw.2
    have hwtop := hw.1
    by_cases hk : k = kLength
    · subst hk
      have hnone : dictLookup rest kLength = none := keyNotIn_lookup kLength rest hwtop.1
      have hrest0 : ftXlEntries rest = 0 := by
        rw [ihr2]; simp [specLengthEntry, hnone]
      cases v with
      | int n => simp [ftXlEntries, hrest0, specLengthEntry, dictLookup]
      | str s => simp [ftXlEntries, hrest0, specLengthEntry, dictLookup]
      | list l => simp [ftXlEntries, hrest0, specLengthEntry, dictLookup]
      | dict d2 => exact absurd hf.1 (by simp [isFileVal])
    · have hlook : specLengthEntry (.cons k v rest) = specLengthEntry rest := by
        simp [specLengthEntry, dictLookup, if_neg hk]
      rw [hlook]
      cases v with
      | int n => simp [ftXlEntries, if_neg hk, ihr2]
      | str s => simp [ftXlEntries, ihr2]
      | list l => simp [ftXlEntries, ihr2]
      | dict d2 => exact absurd hf.1 (by simp [isFileVal])

/-- A `File` record has no map-valued children, so the spec's child sum over
it is zero. -/
theorem specChildren_file (d : Bdict) (hf : checkFile d = true) :
    specChildrenXl d = 0 := by
  induction d using Bdict.inductionOn with
  | nil => rfl
  | cons k v rest ihr =>
    unfold checkFile at hf
    rw [Bool.and_eq_true] at hf
    cases v with
    | int n => simp [specChildrenXl, ihr hf.2]
    | str s => simp [specChildrenXl, ihr hf.2]
    | list l => simp [specChildrenXl, ihr hf.2]
    | dict d2 => exact absurd hf.1 (by simp [isFileVal])

/-- On every dictionary that passes the source's `File_tree` or `File` shape
check and has distinct keys at every level (as every decoded Python
dictionary does), the recursive per-entry loop of `_get_file_tree_xl`
computes exactly the per-node leaf rule of the specification. -/
theorem ftXl_eq_spec (d : Bdict) (hw : wfDict d = true)
    (hck : (checkFTnode d || checkFile d) = true) :
    ftXlEntries d = specNodeXl d := by
  induction d using Bdict.strongInductionOn with
  | ih d ih =>
  cases hft : checkFTnode d with
  | true =>
    have hlen := specLengthEntry_ft d hft
    unfold specNodeXl
    rw [hlen]
    cases d with
    | nil => rfl
    | cons k v rest =>
      cases v with
      | dict d2 =>
        simp only [checkFTnode, Bool.and_eq_true] at hft
        unfold wfDict at hw
        rw [Bool.and_eq_true, Bool.and_eq_true] at hw
        have hd2 : ftXlEntries d2 = specNodeXl d2 := by
          refine ih d2 ?_ hw.1.2 hft.1
          simp only [Bdict.cons.sizeOf_spec, Bval.dict.sizeOf_spec]
          omega
        have hrest : ftXlEntries rest = specChildrenXl rest := by
          have := ih rest
            (by simp only [Bdict.cons.sizeOf_spec, Bval.dict.sizeOf_spec]; omega)
            hw.2 (by simp [hft.2])
          rw [this]
          unfold specNodeXl
          rw [specLengthEntry_ft rest hft.2]
        show ftXlEntries d2 + ftXlEntries rest = specChildrenXl (.cons k (.dict d2) rest)
        unfold specChildrenXl
        rw [hd2, hrest]
        show specNodeXl d2 + specChildrenXl rest =
          (match specLengthEntry d2 with | some n => n | none => specChildrenXl d2) + specChildrenXl rest
        rfl
      | int n => exact absurd hft (by simp [checkFTnode])
      | str s => exact absurd hft (by simp [checkFTnode])
      | list l => exact absurd hft (by simp [checkFTnode])
  | false =>
    have hfl : checkFile d = true := by
      rcases Bool.or_eq_true _ _ |>.mp hck with h | h
      · exact absurd h (by simp [hft])
      · exact h
    rw [ftXl_file d hfl hw]
    unfold specNodeXl
    cases hsl : specLengthEntry d with
    | none => simp [specChildren_file d hfl]
    | some n => rfl

/-- Claim C1: for a successfully constructed hybrid torrent in which both the
v2-derived and the v1-derived totals are obtainable, get_xl is claimed to
return the v2-derived total even when the two differ.  This evaluation shows
the code violating that on a constructible hybrid input: the v2 total is zero
(an obtainable value), the v1 total is five, and get_xl returns five, because
the Python `or` chaining the two paths treats the integer zero as falsy and
falls through to the v1 path, contradicting the code's own comment that the
v2 total is used. -/
theorem C1_hybrid_xl_eval :
    torrentInit (.dict dC1) = .ok tC1 ∧ tC1.format = .hybrid
      ∧ get_file_tree_xl tC1 = some 0 ∧ get_files_xl tC1 = some 5
      ∧ get_xl tC1 = some 5 ∧ get_xl tC1 ≠ some 0 :=
  ⟨rfl, rfl, rfl, rfl, rfl, by intro h; exact absurd (Option.some.inj h) (by decide)⟩

/-- Claim C2: get_xl is claimed to fail only when neither path yields a value,
and to return an integer on every successfully constructed torrent.  This
evaluation shows the code violating that: a valid v2 torrent holding a single
empty file constructs successfully, its file-tree path yields the value zero,
yet get_xl hits the failing assertion (modelled by `none`), again because the
Python `or` treats zero as falsy and the v1 path has no value. -/
theorem C2_v2_assert_eval :
    torrentInit (.dict dC2) = .ok tC2 ∧ tC2.format = .v2
      ∧ get_file_tree_xl tC2 = some 0 ∧ get_files_xl tC2 = none
      ∧ get_xl tC2 = none :=
  ⟨rfl, rfl, rfl, rfl, rfl⟩

/-- Claim C3, counterexample: in the spec's magnet scenario (v1 format, the
example digest, name "example", one tracker, dn on, xl off, tr on) the code's
output differs from the claimed string: `urllib.parse.quote` keeps `/` in its
default safe set, so the slashes of the tracker URL are not percent-encoded. -/
theorem C3_counterexample :
    hexdigest digC3 = "da39a3ee5e6b4b0d3255bfef95601890afd80709"
      ∧ torrentInit (.dict dC3) = .ok tC3 ∧ tC3.format = .v1
      ∧ get_magnet sha1C3 sha256Z tC3 true false true true false = some magnetActualC3
      ∧ magnetActualC3 ≠
        "magnet:?xt=urn:btih:da39a3ee5e6b4b0d3255bfef95601890afd80709&dn=example&tr=http%3A%2F%2Ftracker.example%2Fannounce" :=
  ⟨rfl, rfl, rfl, rfl, by decide⟩

/-- Claim C3, amended: the same scenario produces exactly the magnet URI with
the colon of the tracker URL percent-encoded but its slashes kept verbatim. -/
theorem C3_amended :
    get_magnet sha1C3 sha256Z tC3 true false true true false =
      some "magnet:?xt=urn:btih:da39a3ee5e6b4b0d3255bfef95601890afd80709&dn=example&tr=http%3A//tracker.example/announce" :=
  rfl

/-- Claim C4: the format classifier is a pure function of the validated info
record: no meta version gives v1, meta version two gives v2 without files and
hybrid with files. -/
theorem C4_classifier (info : InfoData) :
    (info.meta_version = none → get_torrent_format info = some .v1)
      ∧ (info.meta_version = some 2 → info.files = none → get_torrent_format info = some .v2)
      ∧ (info.meta_version = some 2 → info.files ≠ none → get_torrent_format info = some .hybrid) := by
  refine ⟨fun h => ?_, fun h hf => ?_, fun h hf => ?_⟩
  · simp [get_torrent_format, h]
  · simp [get_torrent_format, h, hf]
  · cases hfo : info.files with
    | none => exact absurd hfo hf
    | some fs => simp [get_torrent_format, h, hfo]

/-- Witness for claim C4 at three concrete info records, one per format. -/
theorem C4_classifier_witness :
    (infoW1.meta_version = none ∧ get_torrent_format infoW1 = some .v1)
      ∧ (infoW2.meta_version = some 2 ∧ infoW2.files = none
          ∧ get_torrent_format infoW2 = some .v2)
      ∧ (infoW3.meta_version = some 2 ∧ infoW3.files ≠ none
          ∧ get_torrent_format infoW3 = some .hybrid) :=
  ⟨⟨rfl, (C4_classifier infoW1).1 rfl⟩,
   ⟨rfl, rfl, (C4_classifier infoW2).2.1 rfl rfl⟩,
   ⟨rfl, by simp [infoW3], (C4_classifier infoW3).2.2 rfl (by simp [infoW3])⟩⟩

/-- Claim C10, counterexample: validation failure is not atomic on the
mutation path.  A valid torrent accepts a raw-structure assignment of the
empty dictionary; the re-validation fails (the error is raised), yet the
instance remains observable with the unvalidated empty dictionary stored as
its raw structure — so instances are not read-only and a failed re-validation
leaves a partially-updated object. -/
theorem C10_counterexample :
    torrentInit (.dict dC10) = .ok tC10
      ∧ (set_data_dict tC10 .nil).2 = some .pydantic
      ∧ (set_data_dict tC10 .nil).1.data_dict = .nil
      ∧ validateData .nil = none
      ∧ (set_data_dict tC10 .nil).1.data = tC10.data :=
  ⟨rfl, rfl, rfl, rfl, rfl⟩

/-- Claim C10, amended: construction is atomic (a failed construction returns
an error and no instance), but the raw-structure setter is not: it stores the
new raw dictionary before re-validating, so a failed re-validation leaves the
instance holding the unvalidated raw dictionary while its typed data, bytes
and format keep their previous values. -/
theorem C10_amended (t : Torrent) (v : Bdict) (h : validateData v = none) :
    set_data_dict t v = ({ t with data_dict := v }, some .pydantic) := by
  unfold set_data_dict
  rw [h]

/-- Witness for the amended claim C10 at a concrete torrent and assignment. -/
theorem C10_amended_witness :
    validateData .nil = none
      ∧ set_data_dict tC10 .nil = ({ tC10 with data_dict := .nil }, some .pydantic) :=
  ⟨rfl, C10_amended tC10 .nil rfl⟩

/-- Claim C5: construction succeeds only when the format-specific required
fields are present — v1 needs pieces and files-or-length, v2 needs file tree,
meta version and piece layers, hybrid needs the union of both. -/
theorem C5_required_fields (raw : Bval) (t : Torrent) (h : torrentInit raw = .ok t) :
    (t.format = .v1 →
      t.data.info.pieces ≠ none ∧ (t.data.info.files ≠ none ∨ t.data.info.length ≠ none))
      ∧ (t.format = .v2 →
        t.data.info.file_tree ≠ none ∧ t.data.info.meta_version ≠ none
          ∧ t.data.piece_layers ≠ none)
      ∧ (t.format = .hybrid →
        t.data.info.pieces ≠ none ∧ (t.data.info.files ≠ none ∨ t.data.info.length ≠ none)
          ∧ t.data.info.file_tree ≠ none ∧ t.data.info.meta_version ≠ none
          ∧ t.data.piece_layers ≠ none) := by
  obtain ⟨d, dm, fmt, hraw, hval, hfmt, hchk, hexcl, hdd, hdata, hfm⟩ := torrentInit_ok raw t h
  rw [hdata, hfm]
  refine ⟨fun h1 => ?_, fun h1 => ?_, fun h1 => ?_⟩ <;> rw [h1] at hchk <;>
    simp only [formatCheckFails, Bool.or_eq_false_iff, Bool.and_eq_false_iff,
      Option.isNone_eq_false_iff, Option.isSome_iff_ne_none] at hchk <;>
    tauto

/-- Witness for claim C5 at a concrete hybrid input. -/
theorem C5_required_fields_witness :
    torrentInit (.dict dC1) = .ok tC1
      ∧ ((tC1.format = .v1 →
          tC1.data.info.pieces ≠ none
            ∧ (tC1.data.info.files ≠ none ∨ tC1.data.info.length ≠ none))
        ∧ (tC1.format = .v2 →
          tC1.data.info.file_tree ≠ none ∧ tC1.data.info.meta_version ≠ none
            ∧ tC1.data.piece_layers ≠ none)
        ∧ (tC1.format = .hybrid →
          tC1.data.info.pieces ≠ none
            ∧ (tC1.data.info.files ≠ none ∨ tC1.data.info.length ≠ none)
            ∧ tC1.data.info.file_tree ≠ none ∧ tC1.data.info.meta_version ≠ none
            ∧ tC1.data.piece_layers ≠ none)) :=
  ⟨rfl, C5_required_fields (.dict dC1) tC1 rfl⟩

/-- Claim C6: an input whose info holds both files and length is always
rejected, whatever its format; consequently no successfully constructed
torrent has both fields present. -/
theorem C6_mutual_exclusion :
    (∀ (d i : Bdict), dictLookup d kInfo = some (.dict i) →
      (dictLookup i kFiles).isSome = true → (dictLookup i kLength).isSome = true →
      ∃ e, torrentInit (.dict d) = .error e)
      ∧ (∀ (raw : Bval) (t : Torrent), torrentInit raw = .ok t →
        t.data.info.files = none ∨ t.data.info.length = none) := by
  constructor
  · intro d i hinfo hf hl
    cases hval : validateData d with
    | none => exact ⟨.pydantic, by simp [torrentInit, hval]⟩
    | some dm =>
      obtain ⟨⟨i0, hi0, hparse⟩, _⟩ := validateData_inv d dm hval
      rw [hinfo] at hi0
      cases Bval.dict.inj (Option.some.inj hi0)
      obtain ⟨hlen', hfiles', _, _, _⟩ := parseInfo_inv i dm.info hparse
      obtain ⟨vf, hvf⟩ := Option.isSome_iff_exists.mp hf
      obtain ⟨af, _, haf⟩ := optField_present i kFiles parseFiles dm.info.files vf hfiles' hvf
      obtain ⟨vl, hvl⟩ := Option.isSome_iff_exists.mp hl
      obtain ⟨al, _, hal⟩ := optField_present i kLength asIntLax dm.info.length vl hlen' hvl
      cases hfmt : get_torrent_format dm.info with
      | none => exact ⟨.unknown_format, by simp [torrentInit, hval, hfmt]⟩
      | some fmt =>
        cases hchk : formatCheckFails dm fmt with
        | true => exact ⟨.format_error, by simp [torrentInit, hval, hfmt, hchk]⟩
        | false =>
          exact ⟨.format_error, by simp [torrentInit, hval, hfmt, hchk, haf, hal]⟩
  · intro raw t h
    obtain ⟨d, dm, fmt, _, _, _, _, hexcl, _, hdata, _⟩ := torrentInit_ok raw t h
    rw [hdata]
    cases hfo : dm.info.files with
    | none => exact Or.inl rfl
    | some fs =>
      right
      rw [hfo] at hexcl
      simpa using hexcl

/-- Witness for claim C6 at a concrete rejected input and at a concrete
constructed torrent. -/
theorem C6_mutual_exclusion_witness :
    (dictLookup dC6 kInfo = some (.dict iC6)
      ∧ (dictLookup iC6 kFiles).isSome = true
      ∧ (dictLookup iC6 kLength).isSome = true
      ∧ ∃ e, torrentInit (.dict dC6) = .error e)
      ∧ (torrentInit (.dict dC1) = .ok tC1
        ∧ (tC1.data.info.files = none ∨ tC1.data.info.length = none)) :=
  ⟨⟨rfl, rfl, rfl, C6_mutual_exclusion.1 dC6 iC6 rfl rfl rfl⟩,
   ⟨rfl, C6_mutual_exclusion.2 (.dict dC1) tC1 rfl⟩⟩

/-- Claim C7: an input whose info carries a meta version value other than
two never constructs with that value: whenever construction succeeds, the
validated meta version is absent or exactly two (so the torrent is never
silently classified under an unknown meta version); and an input whose raw
meta version entry validates to an integer other than two (an integer value,
or a numeric byte string the lax validator coerces) always fails construction
with an error. -/
theorem C7_unknown_meta_version :
    (∀ (raw : Bval) (t : Torrent), torrentInit raw = .ok t →
      t.data.info.meta_version = none ∨ t.data.info.meta_version = some 2)
      ∧ (∀ (d i : Bdict) (v : Bval) (n : Int),
        dictLookup d kInfo = some (.dict i) →
        dictLookup i kMetaVersion = some v →
        asIntLax v = some n → n ≠ 2 →
        ∃ e, torrentInit (.dict d) = .error e) := by
  constructor
  · intro raw t h
    obtain ⟨d, dm, fmt, _, _, hfmt, _, _, _, hdata, _⟩ := torrentInit_ok raw t h
    rw [hdata]
    cases hmv : dm.info.meta_version with
    | none => exact Or.inl rfl
    | some a =>
      right
      by_cases h2 : a = 2
      · rw [h2]
      · exfalso
        have hnone : get_torrent_format dm.info = none := by
          unfold get_torrent_format
          rw [hmv]
          split <;> simp_all
        rw [hnone] at hfmt
        exact Option.noConfusion hfmt
  · intro d i v n hinfo hmv hn hne
    cases hval : validateData d with
    | none => exact ⟨.pydantic, by simp [torrentInit, hval]⟩
    | some dm =>
      obtain ⟨⟨i0, hi0, hparse⟩, _⟩ := validateData_inv d dm hval
      rw [hinfo] at hi0
      cases Bval.dict.inj (Option.some.inj hi0)
      obtain ⟨_, _, _, _, hmvf⟩ := parseInfo_inv i dm.info hparse
      obtain ⟨a, ha, hmva⟩ := optField_present i kMetaVersion asIntLax dm.info.meta_version v hmvf hmv
      cases Option.some.inj (ha.symm.trans hn)
      have hfmt : get_torrent_format dm.info = none := by
        unfold get_torrent_format
        rw [hmva]
        split <;> simp_all
      exact ⟨.unknown_format, by simp [torrentInit, hval, hfmt]⟩

/-- Witness for claim C7: the validated-level invariant applied to a torrent
whose meta version arrives as the byte string "2" (coerced to two), and the
failure direction applied to an integer three and to a byte string "3". -/
theorem C7_unknown_meta_version_witness :
    (torrentInit (.dict dC7s) = .ok tC7s
      ∧ dictLookup iC7s kMetaVersion = some (.str (bs "2"))
      ∧ (tC7s.data.info.meta_version = none ∨ tC7s.data.info.meta_version = some 2))
      ∧ (dictLookup dC7 kInfo = some (.dict iC7)
        ∧ dictLookup iC7 kMetaVersion = some (.int 3)
        ∧ asIntLax (.int 3) = some 3 ∧ (3 : Int) ≠ 2
        ∧ ∃ e, torrentInit (.dict dC7) = .error e)
      ∧ (dictLookup dC7t kInfo = some (.dict iC7t)
        ∧ dictLookup iC7t kMetaVersion = some (.str (bs "3"))
        ∧ asIntLax (.str (bs "3")) = some 3
        ∧ ∃ e, torrentInit (.dict dC7t) = .error e) :=
  ⟨⟨rfl, rfl, C7_unknown_meta_version.1 (.dict dC7s) tC7s rfl⟩,
   ⟨rfl, rfl, rfl, by decide,
    C7_unknown_meta_version.2 dC7 iC7 (.int 3) 3 rfl rfl rfl (by decide)⟩,
   ⟨rfl, rfl, rfl,
    C7_unknown_meta_version.2 dC7t iC7t (.str (bs "3")) 3 rfl rfl rfl (by decide)⟩⟩

/-- Claim C8: for every v1 or hybrid torrent, hash_v1 is the twenty-byte
SHA-1 digest of the canonical re-encoding of the raw info sub-map, and two
constructed torrents with equal raw info sub-maps have identical hash_v1,
whatever else differs; stated for an arbitrary twenty-byte digest function
standing in for the external SHA-1 primitive. -/
theorem C8_hash_v1 (sha1 : Bytes → Bytes) (hlen : ∀ b, (sha1 b).length = 20)
    (raw : Bdict) (t : Torrent) (h : torrentInit (.dict raw) = .ok t)
    (hfmt : t.format = .v1 ∨ t.format = .hybrid) :
    (∃ iv, dictLookup raw kInfo = some iv ∧ hash_v1 sha1 t = some (sha1 (bencode iv))
      ∧ (sha1 (bencode iv)).length = 20)
      ∧ (∀ (raw2 : Bdict) (t2 : Torrent), torrentInit (.dict raw2) = .ok t2 →
        (t2.format = .v1 ∨ t2.format = .hybrid) →
        dictLookup raw2 kInfo = dictLookup raw kInfo →
        hash_v1 sha1 t2 = hash_v1 sha1 t) := by
  have key : ∀ (r : Bdict) (u : Torrent), torrentInit (.dict r) = .ok u →
      (u.format = .v1 ∨ u.format = .hybrid) →
      ∃ iv, dictLookup r kInfo = some iv ∧ hash_v1 sha1 u = some (sha1 (bencode iv)) := by
    intro r u hu hfu
    obtain ⟨d, dm, fmt, hraw, hval, _, _, _, hdd, _, hfm⟩ := torrentInit_ok _ u hu
    cases Bval.dict.inj hraw
    obtain ⟨⟨i, hi, _⟩, _⟩ := validateData_inv r dm hval
    refine ⟨.dict i, hi, ?_⟩
    have hget : get_hash_v1 sha1 u = some (sha1 (bencode (.dict i))) := by
      unfold get_hash_v1
      rw [hdd, hi]
      rfl
    unfold hash_v1
    rcases hfu with hv | hv <;> rw [hv] <;> exact hget
  obtain ⟨iv, hiv, hh⟩ := key raw t h hfmt
  refine ⟨⟨iv, hiv, hh, hlen _⟩, ?_⟩
  intro raw2 t2 h2 hf2 heq
  obtain ⟨iv2, hiv2, hh2⟩ := key raw2 t2 h2 hf2
  rw [heq, hiv] at hiv2
  cases Option.some.inj hiv2
  rw [hh, hh2]

/-- Witness for claim C8: a concrete twenty-byte digest stand-in applied to a
concrete v1 torrent. -/
theorem C8_hash_v1_witness :
    (∀ b, (sha1W b).length = 20)
      ∧ torrentInit (.dict dC10) = .ok tC10
      ∧ (tC10.format = .v1 ∨ tC10.format = .hybrid)
      ∧ ((∃ iv, dictLookup dC10 kInfo = some iv
            ∧ hash_v1 sha1W tC10 = some (sha1W (bencode iv))
            ∧ (sha1W (bencode iv)).length = 20)
        ∧ (∀ (raw2 : Bdict) (t2 : Torrent), torrentInit (.dict raw2) = .ok t2 →
          (t2.format = .v1 ∨ t2.format = .hybrid) →
          dictLookup raw2 kInfo = dictLookup dC10 kInfo →
          hash_v1 sha1W t2 = hash_v1 sha1W tC10)) :=
  ⟨fun b => by simp [sha1W], rfl, Or.inl rfl,
   C8_hash_v1 sha1W (fun b => by simp [sha1W]) dC10 tC10 rfl (Or.inl rfl)⟩

/-- Claim C9: the v2 size-aggregation path returns `none` exactly when the
file tree is absent; every stored file tree of a constructed torrent passes
the source's `File_tree` shape check; and on every dictionary passing that
shape check (or the `File` record check, for leaf records) with distinct keys
at every level, the per-entry recursive loop of the code computes exactly the
per-node leaf rule the claim states: an integer-valued length entry is the
node's contribution and stops recursion, otherwise the map-valued children
are summed. -/
theorem C9_size_aggregator :
    (∀ t : Torrent, get_file_tree_xl t = none ↔ t.data.info.file_tree = none)
      ∧ (∀ (raw : Bval) (t : Torrent) (d : Bdict), torrentInit raw = .ok t →
        t.data.info.file_tree = some d → checkFTnode d = true)
      ∧ (∀ d : Bdict, wfDict d = true → (checkFTnode d || checkFile d) = true →
        ftXlEntries d = specNodeXl d) := by
  refine ⟨?_, ?_, ftXl_eq_spec⟩
  · intro t
    unfold get_file_tree_xl
    cases t.data.info.file_tree <;> simp
  · intro raw t d h hft
    obtain ⟨d0, dm, fmt, _, hval, _, _, _, _, hdata, _⟩ := torrentInit_ok raw t h
    obtain ⟨⟨i, _, hparse⟩, _⟩ := validateData_inv d0 dm hval
    obtain ⟨_, _, _, hftf, _⟩ := parseInfo_inv i dm.info hparse
    rw [hdata] at hft
    rw [hft] at hftf
    obtain ⟨v, _, hpv⟩ := optField_isSome i kFileTree parseFT d hftf
    exact (parseFT_some v d hpv).2

/-- Witness for claim C9: the spec's example tree with leaf lengths one
hundred, two hundred fifty and zero, carried by a concrete v2 torrent. -/
theorem C9_size_aggregator_witness :
    torrentInit (.dict dC9) = .ok tC9
      ∧ tC9.data.info.file_tree = some treeC9
      ∧ checkFTnode treeC9 = true
      ∧ wfDict treeC9 = true
      ∧ (checkFTnode treeC9 || checkFile treeC9) = true
      ∧ ftXlEntries treeC9 = specNodeXl treeC9
      ∧ ftXlEntries treeC9 = 350
      ∧ (get_file_tree_xl tC9 = none ↔ tC9.data.info.file_tree = none) :=
  ⟨rfl, rfl, C9_size_aggregator.2.1 (.dict dC9) tC9 treeC9 rfl rfl, rfl, rfl,
   C9_size_aggregator.2.2 treeC9 rfl rfl, rfl,
   C9_size_aggregator.1 tC9⟩
